import Mathlib

/-!
Verification of the bmregression regression-test orchestration engine
(src/main.rs) against its natural-language specification.

The development shallowly embeds the engine: the YAML configuration values
are an inductive type mirroring the constructors of the yaml-rust `Yaml`
enum that the program actually uses, filesystem and process effects are
made explicit as fields of a per-case world record, and each Rust function
of the engine (`extract_tags_from_config`, `check_regression_tags`,
`list_regressions`, `describe_regressions`, `run_regressions`,
`reset_regressions`, `diff_regressions`, `execute_regression`) becomes a
Lean function of the same name over those records.  A Rust `panic`
(an `unwrap` of a `None`/`Err` value) is modelled by a distinguished
outcome constructor, since a panic aborts the whole process rather than
being caught by the per-case loops.
-/

/-- Embedding of the yaml-rust `Yaml` enum restricted to the constructors
the program can meet: strings, integers, booleans, arrays, hashes (keys
are the string keys the config files use), null, and the `BadValue`
returned by a failed index. -/
inductive Yaml where
  | ystr (s : String)
  | yint (n : Int)
  | ybool (b : Bool)
  | yarr (l : List Yaml)
  | yhash (kvs : List (String × Yaml))
  | ynull
  | ybad

/-- Embedding of `Index<&str> for Yaml`: look the key up in a hash,
returning `BadValue` when the value is not a hash or the key is absent. -/
def Yaml.index (y : Yaml) (key : String) : Yaml :=
  match y with
  | .yhash kvs =>
    match kvs.lookup key with
    | some v => v
    | none => .ybad
  | _ => .ybad

/-- Embedding of `Yaml::as_str`: only a YAML string yields a value. -/
def Yaml.as_str : Yaml → Option String
  | .ystr s => some s
  | _ => none

/-- Embedding of `Yaml::as_vec`: only a YAML array yields a value. -/
def Yaml.as_vec : Yaml → Option (List Yaml)
  | .yarr l => some l
  | _ => none

/-- Embedding of `extract_tags_from_config` (main.rs 366-375): if the
`tags` field is an array, keep exactly its string elements; otherwise
fall back to the singleton `default` tag list. -/
def extract_tags_from_config (config : Yaml) : List String :=
  match (config.index "tags").as_vec with
  | some tagsYaml => tagsYaml.filterMap (fun t => t.as_str)
  | none => ["default"]

/-- The pure tag filter expression of `check_regression_tags`
(main.rs 347-349): the requested tags and the tags of the regression
intersect. -/
def tags_match (regression_tags requested_tags : List String) : Bool :=
  requested_tags.any (fun tag => regression_tags.contains tag)

/-- State of one case directory's `config.yaml` as the loader can see it:
the file may be absent, may fail to parse, or parses to a list of YAML
documents (yaml-rust returns a `Vec<Yaml>`). -/
inductive ConfigState where
  | missing
  | unparseable
  | parsed (docs : List Yaml)

/-- Embedding of `check_regression_tags` (main.rs 319-355): false when the
config file is absent, unreadable or unparseable, or parses to zero
documents; otherwise the intersection test on the extracted tags. -/
def check_regression_tags (config : ConfigState) (requested_tags : List String) : Bool :=
  match config with
  | .parsed docs =>
    match docs.head? with
    | some c => tags_match (extract_tags_from_config c) requested_tags
    | none => false
  | _ => false

/-- Embedding of Rust `str::contains` used for the name filter: the
pattern occurs as a contiguous substring. -/
def strContains (s pat : String) : Bool :=
  decide (List.IsInfix pat.data s.data)

theorem tags_match_iff (regression_tags requested_tags : List String) :
    tags_match regression_tags requested_tags = true ↔
      ∃ t, t ∈ requested_tags ∧ t ∈ regression_tags := by
  simp [tags_match, List.any_eq_true]

theorem check_regression_tags_iff (config : ConfigState) (requested_tags : List String) :
    check_regression_tags config requested_tags = true ↔
      ∃ docs c, config = ConfigState.parsed docs ∧ docs.head? = some c ∧
        ∃ t, t ∈ requested_tags ∧ t ∈ extract_tags_from_config c := by
  cases config with
  | missing => simp [check_regression_tags]
  | unparseable => simp [check_regression_tags]
  | parsed docs =>
    cases hd : docs.head? with
    | none => simp [check_regression_tags, hd]
    | some c => simp [check_regression_tags, hd, tags_match_iff]

/-- The four subcommand actions dispatched to `execute_regression`
(the Rust code passes them as the strings `describe`, `run`, `reset`,
`diff`). -/
inductive RegAction where
  | describe
  | run
  | reset
  | diff
  deriving DecidableEq

/-- The per-case verdicts the engine prints.  `silentOk` models the
fall-through of the final if chain of `execute_regression` for an action
string other than run, reset or diff; it is unreachable for the four
`RegAction` values because describe returns earlier. -/
inductive Verdict where
  | described (name regbase sourcedata targetdata regcommand : String) (tags : List String)
  | passed
  | failed
  | reset
  | noDifferences
  | differencesFound (body : String)
  | silentOk
  deriving DecidableEq

/-- Outcome of `execute_regression` on one case: a verdict, a returned
`io::Error` (carrying the message string of the source), or a Rust panic
(an `unwrap` of a missing value), which aborts the whole process instead
of being returned to the caller. -/
inductive ExecOutcome where
  | ok (v : Verdict)
  | error (msg : String)
  | panicked
  deriving DecidableEq

/-- Observable result of one `execute_regression` call: the outcome, a
flag recording whether the configured command was spawned, and the
content of the case's expected-output file afterwards (the only file of
the catalog the engine ever writes). -/
structure ExecResult where
  outcome : ExecOutcome
  command_ran : Bool
  target_file_after : Option String
  deriving DecidableEq

/-- World one `execute_regression` call runs against: whether the case
directory exists, the state of its `config.yaml`, whether
`sourceRoot/regbase` exists, whether the configured command exits
successfully, the content of `sourceRoot/regbase/sourcedata` after the
command (none when the file is missing or unreadable), and the content
of `catalogRoot/caseName/targetdata` (none when that file is missing). -/
structure CaseWorld where
  case_dir_exists : Bool
  config : ConfigState
  base_dir_exists : Bool
  command_succeeds : Bool
  source_file : Option String
  target_file : Option String

/-- Line-oriented, common-lines-suppressed body produced by the external
diff utility: identical line pairs are dropped, differing or surplus
lines are kept. -/
def suppress_common : List String → List String → List String
  | [], [] => []
  | a :: la, [] => (a ++ " <") :: suppress_common la []
  | [], b :: lb => ("> " ++ b) :: suppress_common [] lb
  | a :: la, b :: lb =>
    if a = b then suppress_common la lb
    else (a ++ " | " ++ b) :: suppress_common la lb

/-- Textual body of `sdiff --suppress-common-lines` on two contents. -/
def sdiff_output (actual expected : String) : String :=
  String.intercalate "\n" (suppress_common (actual.splitOn "\n") (expected.splitOn "\n"))

/-- Model of the external collaborator `sdiff --suppress-common-lines A B`
by its documented contract: the exit status reports success exactly when
the two inputs are identical, and standard output carries the
common-lines-suppressed comparison body. -/
def sdiff_run (actual expected : String) : Bool × String :=
  (actual == expected, sdiff_output actual expected)

/-- Embedding of `execute_regression` (main.rs 656-833).  The error
message strings are the ones of the source; `panicked` marks the
`unwrap` calls of the source: on an unparseable config
(`parsed_config.unwrap()`), on an empty document list (`config[0]`
indexing), and on each of the four required fields
(`as_str().unwrap()`), the first failing one in source order.  Note the
expected-file existence check and read happen before the action branch,
for run, reset and diff alike. -/
def execute_regression (action : RegAction) (regression_name : String) (w : CaseWorld) :
    ExecResult :=
  if !w.case_dir_exists then
    ⟨.error "getting regression directory failed", false, w.target_file⟩
  else
    match w.config with
    | .missing => ⟨.error "getting regression configuration file failed", false, w.target_file⟩
    | .unparseable => ⟨.panicked, false, w.target_file⟩
    | .parsed docs =>
      match docs.head? with
      | none => ⟨.panicked, false, w.target_file⟩
      | some c =>
        match (c.index "regbase").as_str, (c.index "sourcedata").as_str,
            (c.index "targetdata").as_str, (c.index "regcommand").as_str with
        | some regbase, some sourcedata, some targetdata, some regcommand =>
          let tags := extract_tags_from_config c
          if action = .describe then
            ⟨.ok (.described regression_name regbase sourcedata targetdata regcommand tags),
              false, w.target_file⟩
          else if !w.base_dir_exists then
            ⟨.error "getting regression base directory failed", false, w.target_file⟩
          else if !w.command_succeeds then
            ⟨.error "executing regression command failed", true, w.target_file⟩
          else
            match w.source_file with
            | none => ⟨.error "getting regression result failed", true, w.target_file⟩
            | some result_data =>
              match w.target_file with
              | none =>
                ⟨.error "getting regression target data directory failed", true,
                  w.target_file⟩
              | some target_data =>
                if action = .run then
                  if result_data = target_data then
                    ⟨.ok .passed, true, w.target_file⟩
                  else
                    ⟨.ok .failed, true, w.target_file⟩
                else if action = .reset then
                  ⟨.ok .reset, true, some result_data⟩
                else if action = .diff then
                  if (sdiff_run result_data target_data).1 then
                    ⟨.ok .noDifferences, true, w.target_file⟩
                  else
                    ⟨.ok (.differencesFound (sdiff_run result_data target_data).2), true,
                      w.target_file⟩
                else
                  ⟨.ok .silentOk, true, w.target_file⟩
        | _, _, _, _ => ⟨.panicked, false, w.target_file⟩

/-- One immediate entry of the catalog directory as the batch loops see
it, together with the world its own `execute_regression` call would run
against.  Being listed by the directory enumeration means the entry
itself exists. -/
structure CaseEntry where
  name : String
  config : ConfigState
  base_dir_exists : Bool
  command_succeeds : Bool
  source_file : Option String
  target_file : Option String

/-- World of the `execute_regression` call made for a listed entry: the
case directory exists because the directory enumeration returned it. -/
def CaseEntry.world (e : CaseEntry) : CaseWorld :=
  ⟨true, e.config, e.base_dir_exists, e.command_succeeds, e.source_file, e.target_file⟩

/-- The per-entry selection test every batch loop applies: skip the
`.git` entry, then require the name-substring match and the tag match. -/
def selected (e : CaseEntry) (regression_name : String) (tags : List String) : Bool :=
  if e.name = ".git" then false
  else strContains e.name regression_name && check_regression_tags e.config tags

/-- Embedding of `list_regressions` (main.rs 273-304): the names printed
under the `Regressions found:` header, in enumeration order. -/
def list_regressions : List CaseEntry → String → List String → List String
  | [], _, _ => []
  | e :: rest, regression_name, tags =>
    if e.name = ".git" then
      list_regressions rest regression_name tags
    else if strContains e.name regression_name && check_regression_tags e.config tags then
      e.name :: list_regressions rest regression_name tags
    else
      list_regressions rest regression_name tags

/-- Embedding of `run_regressions` (main.rs 460-497): the per-case
results in order, paired with whether a panic aborted the loop (a
returned error is caught, printed and the loop continues; a panic is
not). -/
def run_regressions : List CaseEntry → String → List String →
    List (String × ExecOutcome) × Bool
  | [], _, _ => ([], false)
  | e :: rest, regression_name, tags =>
    if e.name = ".git" then
      run_regressions rest regression_name tags
    else if strContains e.name regression_name && check_regression_tags e.config tags then
      let o := (execute_regression .run e.name e.world).outcome
      if o = .panicked then ([(e.name, o)], true)
      else
        let r := run_regressions rest regression_name tags
        ((e.name, o) :: r.1, r.2)
    else
      run_regressions rest regression_name tags

/-- Embedding of `describe_regressions` (main.rs 401-438), same loop with
the describe action (and an empty source root, which describe never
reads). -/
def describe_regressions : List CaseEntry → String → List String →
    List (String × ExecOutcome) × Bool
  | [], _, _ => ([], false)
  | e :: rest, regression_name, tags =>
    if e.name = ".git" then
      describe_regressions rest regression_name tags
    else if strContains e.name regression_name && check_regression_tags e.config tags then
      let o := (execute_regression .describe e.name e.world).outcome
      if o = .panicked then ([(e.name, o)], true)
      else
        let r := describe_regressions rest regression_name tags
        ((e.name, o) :: r.1, r.2)
    else
      describe_regressions rest regression_name tags

/-- Embedding of `reset_regressions` (main.rs 521-558), same loop with
the reset action. -/
def reset_regressions : List CaseEntry → String → List String →
    List (String × ExecOutcome) × Bool
  | [], _, _ => ([], false)
  | e :: rest, regression_name, tags =>
    if e.name = ".git" then
      reset_regressions rest regression_name tags
    else if strContains e.name regression_name && check_regression_tags e.config tags then
      let o := (execute_regression .reset e.name e.world).outcome
      if o = .panicked then ([(e.name, o)], true)
      else
        let r := reset_regressions rest regression_name tags
        ((e.name, o) :: r.1, r.2)
    else
      reset_regressions rest regression_name tags

/-- Embedding of `diff_regressions` (main.rs 582-619), same loop with the
diff action. -/
def diff_regressions : List CaseEntry → String → List String →
    List (String × ExecOutcome) × Bool
  | [], _, _ => ([], false)
  | e :: rest, regression_name, tags =>
    if e.name = ".git" then
      diff_regressions rest regression_name tags
    else if strContains e.name regression_name && check_regression_tags e.config tags then
      let o := (execute_regression .diff e.name e.world).outcome
      if o = .panicked then ([(e.name, o)], true)
      else
        let r := diff_regressions rest regression_name tags
        ((e.name, o) :: r.1, r.2)
    else
      diff_regressions rest regression_name tags

/-- Process exit status of the `run` subcommand as `main` produces it:
`main` prints a message on a returned error and still exits zero (the
`if let Err` arms fall through to `Ok`), so only a panic escapes with the
nonzero abort status 101. -/
def run_command_exit (catalog : List CaseEntry) (regression_name : String)
    (tags : List String) : Nat :=
  if (run_regressions catalog regression_name tags).2 then 101 else 0

/-- Config hash holding the four required string fields and no tags
field, as the sample config of the source doc comment minus tags. -/
def mkConfig (regbase sourcedata targetdata regcommand : String) : Yaml :=
  Yaml.yhash [("regbase", Yaml.ystr regbase), ("sourcedata", Yaml.ystr sourcedata),
    ("targetdata", Yaml.ystr targetdata), ("regcommand", Yaml.ystr regcommand)]

/-- Config hash with the four required fields and an explicit string tag
sequence. -/
def mkConfigTagged (regbase sourcedata targetdata regcommand : String)
    (tags : List String) : Yaml :=
  Yaml.yhash [("regbase", Yaml.ystr regbase), ("sourcedata", Yaml.ystr sourcedata),
    ("targetdata", Yaml.ystr targetdata), ("regcommand", Yaml.ystr regcommand),
    ("tags", Yaml.yarr (tags.map Yaml.ystr))]

/-- World of a fully healthy case up to the two data files: directory and
base present, command succeeds, with the given config document and file
contents. -/
def mkWorld (cfg : Yaml) (sf tf : Option String) : CaseWorld :=
  ⟨true, .parsed [cfg], true, true, sf, tf⟩

theorem filterMap_as_str_map_ystr (ts : List String) :
    (ts.map Yaml.ystr).filterMap Yaml.as_str = ts := by
  induction ts with
  | nil => rfl
  | cons t rest ih => simp [Yaml.as_str, ih]

theorem extract_tags_mkConfigTagged (rb sd td rc : String) (ts : List String) :
    extract_tags_from_config (mkConfigTagged rb sd td rc ts) = ts := by
  simpa [mkConfigTagged, extract_tags_from_config, Yaml.index, Yaml.as_vec,
    List.lookup] using filterMap_as_str_map_ystr ts

/-- C3: the tag filter returns true exactly when the case tag set and the
requested tag set share at least one element, and on the concrete sets of
the claim a case tagged a, b matches the requests b, c and a but not c. -/
theorem C3_tag_filter_is_intersection :
    (∀ caseTags requested : List String,
      tags_match caseTags requested = true ↔ ∃ t, t ∈ requested ∧ t ∈ caseTags) ∧
    tags_match ["a", "b"] ["b", "c"] = true ∧
    tags_match ["a", "b"] ["a"] = true ∧
    tags_match ["a", "b"] ["c"] = false :=
  ⟨tags_match_iff, by decide, by decide, by decide⟩

/-- C4 counterexample: a `tags` field that is a sequence of non-strings
(here the single integer 1) is not a sequence of strings, yet the
extraction returns the empty list rather than the singleton default
list. -/
theorem C4_counterexample :
    extract_tags_from_config (Yaml.yhash [("tags", Yaml.yarr [Yaml.yint 1])]) = [] ∧
    extract_tags_from_config (Yaml.yhash [("tags", Yaml.yarr [Yaml.yint 1])]) ≠ ["default"] :=
  ⟨rfl, by decide⟩

/-- C4 (amended): the extraction returns the singleton default list
whenever the tags field is absent or not a sequence at all; when the
field is a sequence it keeps exactly the string elements, dropping the
others (so a sequence of only non-strings yields the empty list, not the
default list); and a config with no tags field filters identically to
one declaring the single default tag. -/
theorem C4_default_tag_fallback :
    (∀ c : Yaml, (c.index "tags").as_vec = none →
      extract_tags_from_config c = ["default"]) ∧
    (∀ (c : Yaml) (l : List Yaml), (c.index "tags").as_vec = some l →
      extract_tags_from_config c = l.filterMap Yaml.as_str) ∧
    (∀ (kvs : List (String × Yaml)) (requested : List String),
      (Yaml.yhash kvs).index "tags" = Yaml.ybad →
      tags_match (extract_tags_from_config (Yaml.yhash kvs)) requested
        = tags_match
            (extract_tags_from_config
              (Yaml.yhash (("tags", Yaml.yarr [Yaml.ystr "default"]) :: kvs)))
            requested) := by
  refine ⟨fun c h => by simp [extract_tags_from_config, h],
    fun c l h => by simp [extract_tags_from_config, h], fun kvs requested h => ?_⟩
  have h1 : extract_tags_from_config (Yaml.yhash kvs) = ["default"] := by
    simp [extract_tags_from_config, h, Yaml.as_vec]
  have h2 : extract_tags_from_config
      (Yaml.yhash (("tags", Yaml.yarr [Yaml.ystr "default"]) :: kvs)) = ["default"] := by
    simp [extract_tags_from_config, Yaml.index, List.lookup, Yaml.as_vec, Yaml.as_str]
  rw [h1, h2]

/-- Witness for C4: the fallback conjunct at a config with no tags field,
the sequence conjunct at a mixed string and integer sequence, and the
behavioral-identity conjunct at the empty hash with the default request. -/
theorem C4_default_tag_fallback_witness :
    extract_tags_from_config Yaml.ynull = ["default"] ∧
    extract_tags_from_config
      (Yaml.yhash [("tags", Yaml.yarr [Yaml.ystr "a", Yaml.yint 2])]) = ["a"] ∧
    tags_match (extract_tags_from_config (Yaml.yhash [])) ["default"]
      = tags_match
          (extract_tags_from_config (Yaml.yhash [("tags", Yaml.yarr [Yaml.ystr "default"])]))
          ["default"] :=
  ⟨C4_default_tag_fallback.1 Yaml.ynull rfl,
    (C4_default_tag_fallback.2.1 (Yaml.yhash [("tags", Yaml.yarr [Yaml.ystr "a", Yaml.yint 2])])
      [Yaml.ystr "a", Yaml.yint 2] rfl).trans rfl,
    C4_default_tag_fallback.2.2 [] ["default"] rfl⟩

/-- C5: on a healthy case the run verdict is passed exactly when the
actual and expected contents are equal, failed otherwise, and on the
concrete contents of the claim a trailing space flips the verdict. -/
theorem C5_run_is_byte_exact :
    (∀ rb sd td rc nm a e : String,
      (execute_regression .run nm (mkWorld (mkConfig rb sd td rc) (some a) (some e))).outcome
        = (if a = e then .ok .passed else .ok .failed)) ∧
    (execute_regression .run "r"
      (mkWorld (mkConfig "b" "s" "t" "c") (some "A\n") (some "A\n"))).outcome = .ok .passed ∧
    (execute_regression .run "r"
      (mkWorld (mkConfig "b" "s" "t" "c") (some "A\n") (some "A \n"))).outcome = .ok .failed := by
  refine ⟨fun rb sd td rc nm a e => ?_, by decide, by decide⟩
  show (if a = e then (⟨.ok .passed, true, some e⟩ : ExecResult)
      else ⟨.ok .failed, true, some e⟩).outcome = _
  by_cases h : a = e <;> simp [h]

/-- C2 counterexample: a healthy case whose expected file does not exist
yet; the claim says reset creates it and reports the reset verdict, but
the engine fails the case with the expected-file existence error and
writes nothing. -/
theorem C2_counterexample :
    (execute_regression .reset "r"
        ⟨true, .parsed [mkConfig "b" "s" "t" "c"], true, true, some "new\n", none⟩).outcome
      = .error "getting regression target data directory failed" ∧
    (execute_regression .reset "r"
        ⟨true, .parsed [mkConfig "b" "s" "t" "c"], true, true, some "new\n", none⟩).outcome
      ≠ .ok .reset ∧
    (execute_regression .reset "r"
        ⟨true, .parsed [mkConfig "b" "s" "t" "c"], true, true, some "new\n", none⟩).target_file_after
      = none :=
  ⟨rfl, by decide, rfl⟩

/-- C2 (amended): the reset action performs the same expected-file
existence check as run and diff, failing the case when
catalogRoot/caseName/targetdata is missing; when the file exists its
content is unconditionally overwritten with the actual content,
whatever both contents are, and the verdict is reset. -/
theorem C2_reset_overwrites_existing_expected :
    ∀ rb sd td rc nm a e : String,
      execute_regression .reset nm (mkWorld (mkConfig rb sd td rc) (some a) (some e))
        = ⟨.ok .reset, true, some a⟩ ∧
      (execute_regression .reset nm (mkWorld (mkConfig rb sd td rc) (some a) none)).outcome
        = .error "getting regression target data directory failed" ∧
      (execute_regression .reset nm
          (mkWorld (mkConfig rb sd td rc) (some a) none)).target_file_after = none :=
  fun _ _ _ _ _ _ _ => ⟨rfl, rfl, rfl⟩

/-- C6: on a healthy case the diff verdict reports no differences exactly
when the run verdict on the same pair is passed, and otherwise it is the
differences-found verdict carrying the common-lines-suppressed body. -/
theorem C6_diff_agrees_with_run :
    ∀ rb sd td rc nm a e : String,
      ((execute_regression .diff nm
          (mkWorld (mkConfig rb sd td rc) (some a) (some e))).outcome = .ok .noDifferences
        ↔ (execute_regression .run nm
          (mkWorld (mkConfig rb sd td rc) (some a) (some e))).outcome = .ok .passed) ∧
      (execute_regression .diff nm
          (mkWorld (mkConfig rb sd td rc) (some a) (some e))).outcome
        = (if a = e then .ok .noDifferences
            else .ok (.differencesFound (sdiff_output a e))) := by
  intro rb sd td rc nm a e
  have hdiff : (execute_regression .diff nm
      (mkWorld (mkConfig rb sd td rc) (some a) (some e))).outcome
      = (if a = e then .ok .noDifferences
          else .ok (.differencesFound (sdiff_output a e))) := by
    show (if (sdiff_run a e).1 = true then (⟨.ok .noDifferences, true, some e⟩ : ExecResult)
        else ⟨.ok (.differencesFound (sdiff_run a e).2), true, some e⟩).outcome = _
    by_cases h : a = e <;> simp [sdiff_run, h]
  have hrun : (execute_regression .run nm
      (mkWorld (mkConfig rb sd td rc) (some a) (some e))).outcome
      = (if a = e then .ok .passed else .ok .failed) := by
    show (if a = e then (⟨.ok .passed, true, some e⟩ : ExecResult)
        else ⟨.ok .failed, true, some e⟩).outcome = _
    by_cases h : a = e <;> simp [h]
  refine ⟨?_, hdiff⟩
  rw [hdiff, hrun]
  by_cases h : a = e <;> simp [h]

/-- C9: describe emits the case name, the four config fields and the
resolved tags (the default tag when the field is absent, the declared
string tags otherwise), runs no command and leaves the expected file
untouched, for every state of the base directory; the other three
actions all fail when the base directory is missing, so describe is the
only action succeeding there. -/
theorem C9_describe_reads_nothing :
    ∀ (rb sd td rc nm : String) (ts : List String) (base cmd : Bool) (sf tf : Option String),
      execute_regression .describe nm ⟨true, .parsed [mkConfig rb sd td rc], base, cmd, sf, tf⟩
        = ⟨.ok (.described nm rb sd td rc ["default"]), false, tf⟩ ∧
      execute_regression .describe nm
          ⟨true, .parsed [mkConfigTagged rb sd td rc ts], base, cmd, sf, tf⟩
        = ⟨.ok (.described nm rb sd td rc ts), false, tf⟩ ∧
      (execute_regression .run nm
          ⟨true, .parsed [mkConfig rb sd td rc], false, cmd, sf, tf⟩).outcome
        = .error "getting regression base directory failed" ∧
      (execute_regression .reset nm
          ⟨true, .parsed [mkConfig rb sd td rc], false, cmd, sf, tf⟩).outcome
        = .error "getting regression base directory failed" ∧
      (execute_regression .diff nm
          ⟨true, .parsed [mkConfig rb sd td rc], false, cmd, sf, tf⟩).outcome
        = .error "getting regression base directory failed" := by
  intro rb sd td rc nm ts base cmd sf tf
  refine ⟨rfl, ?_, rfl, rfl, rfl⟩
  show (⟨.ok (.described nm rb sd td rc
      (extract_tags_from_config (mkConfigTagged rb sd td rc ts))), false, tf⟩ : ExecResult) = _
  rw [extract_tags_mkConfigTagged]

theorem list_regressions_eq (catalog : List CaseEntry) (regression_name : String)
    (tags : List String) :
    list_regressions catalog regression_name tags
      = (catalog.filter fun e => selected e regression_name tags).map (fun e => e.name) := by
  induction catalog with
  | nil => rfl
  | cons e rest ih =>
    by_cases hg : e.name = ".git"
    · simp [list_regressions, hg, selected, ih]
    · by_cases hm : (strContains e.name regression_name
          && check_regression_tags e.config tags) = true
      · simp [list_regressions, hg, hm, selected, ih]
      · simp [list_regressions, hg, hm, selected, ih]

theorem run_regressions_no_panic (catalog : List CaseEntry) (regression_name : String)
    (tags : List String)
    (h : ∀ e ∈ catalog, selected e regression_name tags = true →
      (execute_regression .run e.name e.world).outcome ≠ ExecOutcome.panicked) :
    run_regressions catalog regression_name tags
      = (((catalog.filter fun e => selected e regression_name tags).map
          fun e => (e.name, (execute_regression .run e.name e.world).outcome)), false) := by
  induction catalog with
  | nil => rfl
  | cons e rest ih =>
    have hrest := ih fun x hx => h x (List.mem_cons_of_mem _ hx)
    by_cases hg : e.name = ".git"
    · simp [run_regressions, hg, selected, hrest]
    · by_cases hm : (strContains e.name regression_name
          && check_regression_tags e.config tags) = true
      · have hsel : selected e regression_name tags = true := by simp [selected, hg, hm]
        have hnp := h e (List.mem_cons_self _ _) hsel
        simp [run_regressions, hg, hm, selected, hrest, hnp]
      · have hsel : selected e regression_name tags = false := by
          simp only [selected, if_neg hg]
          exact Bool.eq_false_iff.mpr hm
        simp [run_regressions, hg, hm, selected, hsel, hrest]

theorem describe_regressions_no_panic (catalog : List CaseEntry) (regression_name : String)
    (tags : List String)
    (h : ∀ e ∈ catalog, selected e regression_name tags = true →
      (execute_regression .describe e.name e.world).outcome ≠ ExecOutcome.panicked) :
    describe_regressions catalog regression_name tags
      = (((catalog.filter fun e => selected e regression_name tags).map
          fun e => (e.name, (execute_regression .describe e.name e.world).outcome)), false) := by
  induction catalog with
  | nil => rfl
  | cons e rest ih =>
    have hrest := ih fun x hx => h x (List.mem_cons_of_mem _ hx)
    by_cases hg : e.name = ".git"
    · simp [describe_regressions, hg, selected, hrest]
    · by_cases hm : (strContains e.name regression_name
          && check_regression_tags e.config tags) = true
      · have hsel : selected e regression_name tags = true := by simp [selected, hg, hm]
        have hnp := h e (List.mem_cons_self _ _) hsel
        simp [describe_regressions, hg, hm, selected, hrest, hnp]
      · have hsel : selected e regression_name tags = false := by
          simp only [selected, if_neg hg]
          exact Bool.eq_false_iff.mpr hm
        simp [describe_regressions, hg, hm, selected, hsel, hrest]

theorem reset_regressions_no_panic (catalog : List CaseEntry) (regression_name : String)
    (tags : List String)
    (h : ∀ e ∈ catalog, selected e regression_name tags = true →
      (execute_regression .reset e.name e.world).outcome ≠ ExecOutcome.panicked) :
    reset_regressions catalog regression_name tags
      = (((catalog.filter fun e => selected e regression_name tags).map
          fun e => (e.name, (execute_regression .reset e.name e.world).outcome)), false) := by
  induction catalog with
  | nil => rfl
  | cons e rest ih =>
    have hrest := ih fun x hx => h x (List.mem_cons_of_mem _ hx)
    by_cases hg : e.name = ".git"
    · simp [reset_regressions, hg, selected, hrest]
    · by_cases hm : (strContains e.name regression_name
          && check_regression_tags e.config tags) = true
      · have hsel : selected e regression_name tags = true := by simp [selected, hg, hm]
        have hnp := h e (List.mem_cons_self _ _) hsel
        simp [reset_regressions, hg, hm, selected, hrest, hnp]
      · have hsel : selected e regression_name tags = false := by
          simp only [selected, if_neg hg]
          exact Bool.eq_false_iff.mpr hm
        simp [reset_regressions, hg, hm, selected, hsel, hrest]

theorem diff_regressions_no_panic (catalog : List CaseEntry) (regression_name : String)
    (tags : List String)
    (h : ∀ e ∈ catalog, selected e regression_name tags = true →
      (execute_regression .diff e.name e.world).outcome ≠ ExecOutcome.panicked) :
    diff_regressions catalog regression_name tags
      = (((catalog.filter fun e => selected e regression_name tags).map
          fun e => (e.name, (execute_regression .diff e.name e.world).outcome)), false) := by
  induction catalog with
  | nil => rfl
  | cons e rest ih =>
    have hrest := ih fun x hx => h x (List.mem_cons_of_mem _ hx)
    by_cases hg : e.name = ".git"
    · simp [diff_regressions, hg, selected, hrest]
    · by_cases hm : (strContains e.name regression_name
          && check_regression_tags e.config tags) = true
      · have hsel : selected e regression_name tags = true := by simp [selected, hg, hm]
        have hnp := h e (List.mem_cons_self _ _) hsel
        simp [diff_regressions, hg, hm, selected, hrest, hnp]
      · have hsel : selected e regression_name tags = false := by
          simp only [selected, if_neg hg]
          exact Bool.eq_false_iff.mpr hm
        simp [diff_regressions, hg, hm, selected, hsel, hrest]

theorem selected_iff (e : CaseEntry) (regression_name : String) (tags : List String) :
    selected e regression_name tags = true ↔
      e.name ≠ ".git" ∧ strContains e.name regression_name = true ∧
        check_regression_tags e.config tags = true := by
  by_cases hg : e.name = ".git" <;> simp [selected, hg]

theorem strContains_iff (s pat : String) :
    strContains s pat = true ↔ List.IsInfix pat.data s.data := by
  simp [strContains]

/-- C7: a name appears in the discovery output exactly when some catalog
entry bears it, it is not the reserved .git entry, the pattern is a
substring of it, and its config parses to a first document whose tags
intersect the requested set; in particular the empty pattern matches
every name, and entries with a missing or unparseable config are merely
dropped (the result is a plain name list, with no per-entry error
channel). -/
theorem C7_discovery_exact :
    (∀ (catalog : List CaseEntry) (pat : String) (tags : List String) (n : String),
      n ∈ list_regressions catalog pat tags ↔
        ∃ e, e ∈ catalog ∧ e.name = n ∧ n ≠ ".git" ∧ List.IsInfix pat.data n.data ∧
          ∃ docs c, e.config = ConfigState.parsed docs ∧ docs.head? = some c ∧
            ∃ t, t ∈ tags ∧ t ∈ extract_tags_from_config c) ∧
    (∀ n : String, strContains n "" = true) := by
  constructor
  · intro catalog pat tags n
    rw [list_regressions_eq]
    simp only [List.mem_map, List.mem_filter, selected_iff, strContains_iff,
      check_regression_tags_iff]
    constructor
    · rintro ⟨e, ⟨he, hgit, hsub, hck⟩, hname⟩
      subst hname
      exact ⟨e, he, rfl, hgit, hsub, hck⟩
    · rintro ⟨e, he, hname, hgit, hsub, hck⟩
      subst hname
      exact ⟨e, ⟨he, hgit, hsub, hck⟩, rfl⟩
  · intro n
    simp [strContains]

/-- C8: when every selected case's run action completes rather than
panicking, the run command exits with status zero and every selected
case, failed comparisons included, appears as a per-case result in
order; a failed comparison is the ok verdict failed, never a returned
error. -/
theorem C8_failed_comparison_not_fatal (catalog : List CaseEntry)
    (regression_name : String) (tags : List String)
    (h : ∀ e ∈ catalog, selected e regression_name tags = true →
      (execute_regression .run e.name e.world).outcome ≠ ExecOutcome.panicked) :
    run_command_exit catalog regression_name tags = 0 ∧
    (run_regressions catalog regression_name tags).1
      = (catalog.filter fun e => selected e regression_name tags).map
          (fun e => (e.name, (execute_regression .run e.name e.world).outcome)) := by
  have hr := run_regressions_no_panic catalog regression_name tags h
  exact ⟨by simp [run_command_exit, hr], by rw [hr]⟩

/-- Sample case whose run comparison fails: the actual and expected
contents differ. -/
def failingRunEntry : CaseEntry :=
  ⟨"fail_case", .parsed [mkConfig "b" "s" "t" "c"], true, true, some "A\n", some "B\n"⟩

/-- Witness for C8: a one-case batch whose comparison fails still exits
zero and reports the failed verdict as its per-case result. -/
theorem C8_failed_comparison_not_fatal_witness :
    run_command_exit [failingRunEntry] "" ["default"] = 0 ∧
    (run_regressions [failingRunEntry] "" ["default"]).1
      = [("fail_case", ExecOutcome.ok Verdict.failed)] := by
  have h := C8_failed_comparison_not_fatal [failingRunEntry] "" ["default"] (by decide)
  exact ⟨h.1, h.2.trans (by decide)⟩

/-- C10: for one catalog, pattern and requested tag list, and in the
absence of panics among the selected cases, describe, run, reset and
diff each act on exactly the case names list prints, in the same
order. -/
theorem C10_commands_select_identically (catalog : List CaseEntry)
    (regression_name : String) (tags : List String)
    (hrun : ∀ e ∈ catalog, selected e regression_name tags = true →
      (execute_regression .run e.name e.world).outcome ≠ ExecOutcome.panicked)
    (hdesc : ∀ e ∈ catalog, selected e regression_name tags = true →
      (execute_regression .describe e.name e.world).outcome ≠ ExecOutcome.panicked)
    (hreset : ∀ e ∈ catalog, selected e regression_name tags = true →
      (execute_regression .reset e.name e.world).outcome ≠ ExecOutcome.panicked)
    (hdiff : ∀ e ∈ catalog, selected e regression_name tags = true →
      (execute_regression .diff e.name e.world).outcome ≠ ExecOutcome.panicked) :
    (run_regressions catalog regression_name tags).1.map Prod.fst
        = list_regressions catalog regression_name tags ∧
    (describe_regressions catalog regression_name tags).1.map Prod.fst
        = list_regressions catalog regression_name tags ∧
    (reset_regressions catalog regression_name tags).1.map Prod.fst
        = list_regressions catalog regression_name tags ∧
    (diff_regressions catalog regression_name tags).1.map Prod.fst
        = list_regressions catalog regression_name tags := by
  have hl := list_regressions_eq catalog regression_name tags
  refine ⟨?_, ?_, ?_, ?_⟩
  · rw [run_regressions_no_panic _ _ _ hrun, hl]; simp [List.map_map, Function.comp]
  · rw [describe_regressions_no_panic _ _ _ hdesc, hl]; simp [List.map_map, Function.comp]
  · rw [reset_regressions_no_panic _ _ _ hreset, hl]; simp [List.map_map, Function.comp]
  · rw [diff_regressions_no_panic _ _ _ hdiff, hl]; simp [List.map_map, Function.comp]

/-- Sample reserved version-control entry of a catalog. -/
def gitEntry : CaseEntry := ⟨".git", .missing, true, true, none, none⟩

/-- Sample case carrying only the non-default quick tag. -/
def quickEntry : CaseEntry :=
  ⟨"basys3_blink", .parsed [mkConfigTagged "b" "s" "t" "c" ["quick"]], true, true,
    some "A\n", some "A\n"⟩

/-- Sample healthy case with the implicit default tag. -/
def plainEntry : CaseEntry :=
  ⟨"basys3_counter", .parsed [mkConfig "b" "s" "t" "c"], true, true,
    some "A\n", some "A\n"⟩

/-- Witness for C10 on a catalog holding a .git entry, a non-default
tagged case and a default-tagged case. -/
theorem C10_commands_select_identically_witness :
    (run_regressions [gitEntry, quickEntry, plainEntry] "" ["default"]).1.map Prod.fst
        = list_regressions [gitEntry, quickEntry, plainEntry] "" ["default"] ∧
    (describe_regressions [gitEntry, quickEntry, plainEntry] "" ["default"]).1.map Prod.fst
        = list_regressions [gitEntry, quickEntry, plainEntry] "" ["default"] ∧
    (reset_regressions [gitEntry, quickEntry, plainEntry] "" ["default"]).1.map Prod.fst
        = list_regressions [gitEntry, quickEntry, plainEntry] "" ["default"] ∧
    (diff_regressions [gitEntry, quickEntry, plainEntry] "" ["default"]).1.map Prod.fst
        = list_regressions [gitEntry, quickEntry, plainEntry] "" ["default"] :=
  C10_commands_select_identically [gitEntry, quickEntry, plainEntry] "" ["default"]
    (by decide) (by decide) (by decide) (by decide)

/-- Sample healthy case around the invalid one of the C1 scenario. -/
def validCaseA : CaseEntry :=
  ⟨"case_a", .parsed [mkConfig "b" "s" "t" "c"], true, true, some "A\n", some "A\n"⟩

/-- Sample case whose config.yaml is valid YAML with a matching default
tag but no regbase field. -/
def invalidCaseB : CaseEntry :=
  ⟨"case_b", .parsed [Yaml.yhash [("tags", Yaml.yarr [Yaml.ystr "default"])]], true, true,
    some "A\n", some "A\n"⟩

/-- Sample healthy case listed after the invalid one. -/
def validCaseC : CaseEntry :=
  ⟨"case_c", .parsed [mkConfig "b" "s" "t" "c"], true, true, some "A\n", some "A\n"⟩

/-- C1 (code bug, evaluated at the failing input): the middle case of a
three-case batch has valid YAML with matching tags but no regbase field;
its field unwrap panics, so the batch stops there, the third matching
case is never processed or reported, and the process aborts with a
nonzero status, against both the claim and the error contract stated in
the doc comment of execute_regression in the source. -/
theorem C1_invalid_config_aborts_batch :
    check_regression_tags invalidCaseB.config ["default"] = true ∧
    run_regressions [validCaseA, invalidCaseB, validCaseC] "" ["default"]
      = ([("case_a", .ok .passed), ("case_b", .panicked)], true) ∧
    (∀ p ∈ (run_regressions [validCaseA, invalidCaseB, validCaseC] "" ["default"]).1,
      p.1 ≠ "case_c") ∧
    run_command_exit [validCaseA, invalidCaseB, validCaseC] "" ["default"] = 101 :=
  ⟨by decide, by decide, by decide, by decide⟩

/-- C10 counterexample: in the three-case batch whose middle case has a
valid config with matching tags but no regbase field, the third case
appears in the list output, yet the run loop aborts at the second case
and never acts on the third, so acted-on-by-run and appears-in-list
differ. -/
theorem C10_counterexample :
    "case_c" ∈ list_regressions [validCaseA, invalidCaseB, validCaseC] "" ["default"] ∧
    (∀ p ∈ (run_regressions [validCaseA, invalidCaseB, validCaseC] "" ["default"]).1,
      p.1 ≠ "case_c") :=
  ⟨by decide, by decide⟩
